import Mathlib

/-!
Shallow embedding of the reactive API-call wrapper of this repository:

* `vue-useful-api/src/usefulApi.ts` — the `usefulApi` function; the spec
  calls the object it returns a *CallState*.  Its fields map as
  `executeCounter` = sequenceNumber, `isLoading` = isRunning,
  `isFinished` = isFinished, `response` = lastResult, `error` = lastError.
* `vue-useful-api/src/apiWatch.ts` — the `apiWatch` function; the spec
  calls its closure state a *ReactiveInvoker*.

Modelling choices:

* JavaScript's single-threaded event loop is modelled by splitting
  `execute` into its synchronous prefix (`executeStart`) and the
  continuation chain that runs when the wrapped promise settles
  (`executeChain`).  Overlapping calls are interleavings of these steps.
* A settled promise is `Except E α` (`.ok` = fulfilled, `.error` =
  rejected); `pThen`, `pCatch`, `pFinally` are the JS combinators for
  handlers that themselves run state updates and do not throw, which is
  the case for the handlers in `execute`.
* Subscriber broadcasts (`apiSuccess.trigger`, `apiError.trigger`,
  `apiFinally.trigger`) are recorded in an event log `events`; the event
  hooks fire all registered subscribers synchronously with the payload
  shown, so the log determines exactly which subscribers fired and with
  what.
* `console.error` output is not observable state and is not modelled.
-/

/-- One subscriber broadcast performed by a CallState: `success res args`
is `apiSuccess.trigger ⟨res, originalArgs⟩`, `errorEv err` is
`apiError.trigger err`, `finallyEv` is `apiFinally.trigger undefined`. -/
inductive ApiEvent (R E A : Type) where
  | success (result : R) (args : A)
  | errorEv (err : E)
  | finallyEv
  deriving DecidableEq, Repr

/-- The mutable closure state of one CallState produced by `usefulApi(fn)()`,
together with the log of broadcasts it has performed. -/
structure ApiState (R E A : Type) where
  executeCounter : Nat
  isLoading : Bool
  isFinished : Bool
  response : Option R
  error : Option E
  events : List (ApiEvent R E A)
  deriving DecidableEq, Repr

/-- The field initialisation performed by `usefulApi(fn)()`:
`let executeCounter = 0`, `isFinished = ref(false)`, `isLoading = ref(false)`,
`response = shallowRef(undefined)`, `error = shallowRef(undefined)`,
empty subscriber logs. -/
def initApiState {R E A : Type} : ApiState R E A :=
  { executeCounter := 0, isLoading := false, isFinished := false,
    response := none, error := none, events := [] }

/-- The `loading` helper: `isLoading.value = state; isFinished.value = !state`. -/
def loadingSet {R E A : Type} (s : ApiState R E A) (state : Bool) : ApiState R E A :=
  { s with isLoading := state, isFinished := !state }

/-- The synchronous prefix of `execute(...args)`:
`executeCounter += 1`, capture `currentExecuteCounter`, `loading(true)`,
`error.value = undefined`.  Returns the updated state and the captured
counter. -/
def executeStart {R E A : Type} (s : ApiState R E A) : ApiState R E A × Nat :=
  let n := s.executeCounter + 1
  ({ loadingSet { s with executeCounter := n } true with error := none }, n)

/-- JS `promise.then(f)` for a settled promise and a handler that updates
state and returns normally: a fulfilled value is transformed, a rejection
passes through. -/
def pThen {σ E α β : Type} (st : σ) (p : Except E α) (f : σ → α → σ × β) :
    σ × Except E β :=
  match p with
  | .ok a => ((f st a).1, .ok (f st a).2)
  | .error e => (st, .error e)

/-- JS `promise.catch(h)` for a settled promise and a handler that updates
state and returns normally: a rejection is handled and the chain becomes
fulfilled with the handler's return value. -/
def pCatch {σ E α : Type} (st : σ) (p : Except E α) (h : σ → E → σ × α) :
    σ × Except E α :=
  match p with
  | .ok a => (st, .ok a)
  | .error e => ((h st e).1, .ok (h st e).2)

/-- JS `promise.finally(f)` for a handler that updates state and returns
normally: the settlement passes through unchanged. -/
def pFinally {σ E α : Type} (st : σ) (p : Except E α) (f : σ → σ) :
    σ × Except E α :=
  (f st, p)

/-- The continuation chain `fn(...args).then(...).catch(...).finally(...)`
attached by `execute`, run at the moment the wrapped operation settles with
`outcome`.  `currentExecuteCounter` is the counter value captured by this
invocation at start; `originalArgs` is the `[...args]` copy captured at
start.  The chain value is `Sum.inl` of the then-handler's return
(`undefined`, i.e. `none`, when the stale result is discarded) or `Sum.inr`
of the error returned by the catch handler. -/
def executeChain {R E A : Type} (s : ApiState R E A) (currentExecuteCounter : Nat)
    (originalArgs : A) (outcome : Except E R) :
    ApiState R E A × Except E (Option R ⊕ E) :=
  let t1 := pThen s outcome (fun st res =>
    if currentExecuteCounter ≠ st.executeCounter then
      (st, Sum.inl (none : Option R))
    else
      ({ st with response := some res,
                 events := st.events ++ [ApiEvent.success res originalArgs] },
       Sum.inl (some res)))
  let t2 := pCatch t1.1 t1.2 (fun st err =>
    ({ st with error := some err,
               events := st.events ++ [ApiEvent.errorEv err] },
     Sum.inr err))
  pFinally t2.1 t2.2 (fun st =>
    let st2 := if currentExecuteCounter = st.executeCounter then loadingSet st false else st
    { st2 with events := st2.events ++ [ApiEvent.finallyEv] })

/-- One whole `execute` invocation that settles before any further call
starts: the synchronous prefix immediately followed by the settlement
chain. -/
def executeModel {R E A : Type} (s : ApiState R E A) (originalArgs : A)
    (outcome : Except E R) : ApiState R E A × Except E (Option R ⊕ E) :=
  executeChain (executeStart s).1 (executeStart s).2 originalArgs outcome

/-- A promise settlement is fulfilled (not rejected). -/
def isFulfilled {E α : Type} : Except E α → Bool
  | .ok _ => true
  | .error _ => false

/-- `executeDirect = async (...args) => await fn(...args)`: invokes the
operation directly, touching no CallState field and firing no subscriber;
its outcome — fulfilled value or failure — is returned to the caller. -/
def executeDirect {R E A : Type} (s : ApiState R E A) (outcome : Except E R) :
    ApiState R E A × Except E R :=
  (s, outcome)

/-- Any number of consecutive `executeDirect` calls, keeping only the state. -/
def executeDirectMany {R E A : Type} (s : ApiState R E A)
    (outcomes : List (Except E R)) : ApiState R E A :=
  outcomes.foldl (fun st o => (executeDirect st o).1) s

/-- Discriminator for the finished broadcast. -/
def ApiEvent.isFinallyEv {R E A : Type} : ApiEvent R E A → Bool
  | .finallyEv => true
  | _ => false

/-- Number of "on finished" broadcasts in a log. -/
def countFinally {R E A : Type} (l : List (ApiEvent R E A)) : Nat :=
  (l.filter ApiEvent.isFinallyEv).length

/-- Scenario: invocation A starts, invocation B starts, B's operation
settles with `oB`, then A's operation settles with `oA`.  Returns the
state after B's settlement and the final state. -/
def twoCallsSettleBA {R E A : Type} (s0 : ApiState R E A) (a b : A)
    (oA oB : Except E R) : ApiState R E A × ApiState R E A :=
  let pA := executeStart s0
  let pB := executeStart pA.1
  let s3 := (executeChain pB.1 pB.2 b oB).1
  (s3, (executeChain s3 pA.2 a oA).1)

/-- Scenario: invocation A starts, invocation B starts, A's operation
settles with `oA` (stale), then B's operation settles with `oB`.  Returns
the state after A's settlement and the final state. -/
def twoCallsSettleAB {R E A : Type} (s0 : ApiState R E A) (a b : A)
    (oA oB : Except E R) : ApiState R E A × ApiState R E A :=
  let pA := executeStart s0
  let pB := executeStart pA.1
  let s3 := (executeChain pB.1 pA.2 a oA).1
  (s3, (executeChain s3 pB.2 b oB).1)

/-- One atomic event-loop step on a CallState: either the synchronous
prefix of a new `execute` call with argument list `args`, or the
settlement of the `inv`-th started invocation's operation with `outcome`. -/
inductive Step (R E A : Type) where
  | startCall (args : A)
  | settleCall (inv : Nat) (outcome : Except E R)

/-- A CallState under a history of steps: its state, the argument lists of
the invocations started so far (invocation `i` holds captured counter `i`
and argument list `startedArgs[i-1]`), and which invocations have already
settled (a promise settles at most once). -/
structure Run (R E A : Type) where
  st : ApiState R E A
  startedArgs : List A
  settled : List Nat

/-- A freshly constructed CallState with no history. -/
def initRun {R E A : Type} : Run R E A :=
  { st := initApiState, startedArgs := [], settled := [] }

/-- Applies one event-loop step.  A settlement of an unknown or
already-settled invocation is impossible for a real promise and leaves the
run unchanged. -/
def doStep {R E A : Type} (r : Run R E A) (step : Step R E A) : Run R E A :=
  match step with
  | .startCall args =>
      { r with st := (executeStart r.st).1, startedArgs := r.startedArgs ++ [args] }
  | .settleCall inv outcome =>
      match r.startedArgs[inv - 1]? with
      | none => r
      | some args =>
          if inv ∈ r.settled ∨ inv = 0 then r
          else { r with st := (executeChain r.st inv args outcome).1,
                        settled := inv :: r.settled }

/-- The run reached from a fresh CallState by a schedule of steps. -/
def runSchedule {R E A : Type} (steps : List (Step R E A)) : Run R E A :=
  steps.foldl doStep initRun

/-- The closure state of one ReactiveInvoker registered by `apiWatch`,
together with the log of argument lists it has dispatched to `exec`. -/
structure InvokerState (A : Type) where
  hasExecuted : Bool
  lastArgs : Option A
  calls : List A
  deriving DecidableEq, Repr

/-- The initialisation in `apiWatch`: `hasExecuted = false`,
`lastArgs = undefined`, nothing dispatched yet. -/
def initInvoker {A : Type} : InvokerState A :=
  { hasExecuted := false, lastArgs := none, calls := [] }

/-- `deepEqual(arg, lastArgs)` from fast-equals: full structural equality
of the argument lists; comparing an argument list against `undefined` (no
arguments stored yet) is `false`. -/
def deepEqualArgs {A : Type} [DecidableEq A] (a : A) (last : Option A) : Bool :=
  match last with
  | none => false
  | some b => decide (a = b)

/-- `clone(arg)` from remeda: a deep copy of the argument list.  Lean
values are immutable, so the deep copy is the value itself. -/
def cloneArgs {A : Type} (a : A) : A := a

/-- The `run` watch callback of `apiWatch`, applied to one delivered
watcher value; `none` is the `undefined` skip sentinel.  On a non-skip
value, if `!hasExecuted || !deepEqual(arg, lastArgs)` then `exec` is
dispatched with the delivered arguments, `hasExecuted` becomes true and a
clone of the arguments is stored; otherwise nothing happens. -/
def runWatch {A : Type} [DecidableEq A] (st : InvokerState A) (arg : Option A) :
    InvokerState A :=
  match arg with
  | none => st
  | some a =>
      if !st.hasExecuted || !deepEqualArgs a st.lastArgs then
        { hasExecuted := true, lastArgs := some (cloneArgs a), calls := st.calls ++ [a] }
      else st

/-- A sequence of watcher-value deliveries to one invoker. -/
def watchRun {A : Type} [DecidableEq A] (st : InvokerState A)
    (deliveries : List (Option A)) : InvokerState A :=
  deliveries.foldl runWatch st

/-- `apiWatch` registration with `{ immediate: true }`: the watcher's value
at registration time is delivered once eagerly, then every subsequent
change delivers its new value. -/
def apiWatchModel {A : Type} [DecidableEq A] (initial : Option A)
    (changes : List (Option A)) : InvokerState A :=
  watchRun (runWatch initInvoker initial) changes

theorem executeStart_fst {R E A : Type} (s : ApiState R E A) :
    (executeStart s).1 = { s with executeCounter := s.executeCounter + 1,
                                  isLoading := true, isFinished := false,
                                  error := none } := rfl

theorem executeStart_snd {R E A : Type} (s : ApiState R E A) :
    (executeStart s).2 = s.executeCounter + 1 := rfl

theorem executeChain_ok_current {R E A : Type} {s : ApiState R E A} {c : Nat}
    (args : A) (res : R) (h : c = s.executeCounter) :
    executeChain s c args (Except.ok res) =
      ({ s with response := some res, isLoading := false, isFinished := true,
                events := s.events ++ [ApiEvent.success res args, ApiEvent.finallyEv] },
       Except.ok (Sum.inl (some res))) := by
  subst h
  simp [executeChain, pThen, pCatch, pFinally, loadingSet]

theorem executeChain_ok_stale {R E A : Type} {s : ApiState R E A} {c : Nat}
    (args : A) (res : R) (h : c ≠ s.executeCounter) :
    executeChain s c args (Except.ok res) =
      ({ s with events := s.events ++ [ApiEvent.finallyEv] },
       Except.ok (Sum.inl none)) := by
  simp [executeChain, pThen, pCatch, pFinally, loadingSet, h]

theorem executeChain_err_current {R E A : Type} {s : ApiState R E A} {c : Nat}
    (args : A) (e : E) (h : c = s.executeCounter) :
    executeChain s c args (Except.error e) =
      ({ s with error := some e, isLoading := false, isFinished := true,
                events := s.events ++ [ApiEvent.errorEv e, ApiEvent.finallyEv] },
       Except.ok (Sum.inr e)) := by
  subst h
  simp [executeChain, pThen, pCatch, pFinally, loadingSet]

theorem executeChain_err_stale {R E A : Type} {s : ApiState R E A} {c : Nat}
    (args : A) (e : E) (h : c ≠ s.executeCounter) :
    executeChain s c args (Except.error e) =
      ({ s with error := some e,
                events := s.events ++ [ApiEvent.errorEv e, ApiEvent.finallyEv] },
       Except.ok (Sum.inr e)) := by
  simp [executeChain, pThen, pCatch, pFinally, loadingSet, h]

theorem runWatch_skip {A : Type} [DecidableEq A] (st : InvokerState A) :
    runWatch st none = st := rfl

theorem runWatch_suppressed {A : Type} [DecidableEq A] {st : InvokerState A} {a : A}
    (h1 : st.hasExecuted = true) (h2 : st.lastArgs = some a) :
    runWatch st (some a) = st := by
  simp [runWatch, deepEqualArgs, h1, h2]

theorem runWatch_invoked {A : Type} [DecidableEq A] {st : InvokerState A} {a : A}
    (h : st.hasExecuted = false ∨ st.lastArgs ≠ some a) :
    runWatch st (some a) =
      { hasExecuted := true, lastArgs := some a, calls := st.calls ++ [a] } := by
  rcases h with h | h
  · simp [runWatch, cloneArgs, h]
  · cases hl : st.lastArgs with
    | none => simp [runWatch, deepEqualArgs, hl, cloneArgs]
    | some b =>
      have hab : a ≠ b := fun hEq => h (by rw [hl, hEq])
      simp [runWatch, deepEqualArgs, hl, hab, cloneArgs]

/-- C1: Single-winner success — for two overlapping `execute` calls A
(started first) and B (started second) on the same CallState, if A's
operation resolves successfully after B has started (whether after B's own
successful resolution, first block, or before it, second block), then
`response` (lastResult) holds B's result and the success subscribers fire
only with B's payload, never A's; A's stale success mutates no field and
fires no success broadcast — it contributes only its finished broadcast. -/
theorem single_winner_success {R E A : Type} (s0 : ApiState R E A) (a b : A)
    (rA rB : R) :
    ((twoCallsSettleBA s0 a b (Except.ok rA) (Except.ok rB)).2.response = some rB
      ∧ (twoCallsSettleBA s0 a b (Except.ok rA) (Except.ok rB)).2.events
          = s0.events ++ [ApiEvent.success rB b, ApiEvent.finallyEv, ApiEvent.finallyEv]
      ∧ (twoCallsSettleBA s0 a b (Except.ok rA) (Except.ok rB)).2
          = { (twoCallsSettleBA s0 a b (Except.ok rA) (Except.ok rB)).1 with
              events := (twoCallsSettleBA s0 a b (Except.ok rA) (Except.ok rB)).1.events
                          ++ [ApiEvent.finallyEv] })
    ∧ ((twoCallsSettleAB s0 a b (Except.ok rA) (Except.ok rB)).2.response = some rB
      ∧ (twoCallsSettleAB s0 a b (Except.ok rA) (Except.ok rB)).2.events
          = s0.events ++ [ApiEvent.finallyEv, ApiEvent.success rB b, ApiEvent.finallyEv]
      ∧ (twoCallsSettleAB s0 a b (Except.ok rA) (Except.ok rB)).1
          = { (executeStart (executeStart s0).1).1 with
              events := (executeStart (executeStart s0).1).1.events
                          ++ [ApiEvent.finallyEv] }) := by
  simp [twoCallsSettleBA, twoCallsSettleAB, executeChain, executeStart, pThen,
        pCatch, pFinally, loadingSet]

/-- C2: Error propagation is not sequence-gated — for every `execute`
invocation whose operation fails, `error` (lastError) is set to the failure
value and the error subscribers fire exactly once with it (the settlement
appends exactly one error broadcast, then the finished broadcast),
regardless of whether a newer invocation has superseded this one: the
captured counter `c` is arbitrary relative to the current counter.  The
last two conjuncts state the same for a whole un-superseded invocation. -/
theorem error_always_lands {R E A : Type} (s : ApiState R E A) (c : Nat)
    (args : A) (e : E) :
    (executeChain s c args (Except.error e)).1.error = some e
    ∧ (executeChain s c args (Except.error e)).1.events
        = s.events ++ [ApiEvent.errorEv e, ApiEvent.finallyEv]
    ∧ (executeModel s args (Except.error e)).1.error = some e
    ∧ (executeModel s args (Except.error e)).1.events
        = s.events ++ [ApiEvent.errorEv e, ApiEvent.finallyEv] := by
  by_cases h : c = s.executeCounter <;>
    simp [executeModel, executeChain, executeStart, pThen, pCatch, pFinally,
          loadingSet, h]

/-- C10: A current invocation's successful settlement writes `response`
(lastResult) and fires the success broadcast but never touches `error`
(lastError) — first conjunct, for any counter.  Consequently, in the
scenario where invocation A starts, invocation B starts, the superseded A
fails, and then the winning B succeeds, the final state holds B's result
in `response` and A's stale failure in `error` simultaneously. -/
theorem success_keeps_stale_error {R E A : Type} (s : ApiState R E A) (c : Nat)
    (args : A) (res : R) (s0 : ApiState R E A) (a b : A) (e : E) (r : R) :
    (executeChain s c args (Except.ok res)).1.error = s.error
    ∧ (twoCallsSettleAB s0 a b (Except.error e) (Except.ok r)).2.response = some r
    ∧ (twoCallsSettleAB s0 a b (Except.error e) (Except.ok r)).2.error = some e
    ∧ (twoCallsSettleAB s0 a b (Except.error e) (Except.ok r)).2.events
        = s0.events ++ [ApiEvent.errorEv e, ApiEvent.finallyEv,
                        ApiEvent.success r b, ApiEvent.finallyEv] := by
  by_cases h : c = s.executeCounter <;>
    simp [twoCallsSettleAB, executeChain, executeStart, pThen, pCatch, pFinally,
          loadingSet, h]

/-- C4: Each settlement of an `execute` invocation appends exactly one
finished broadcast, independent of success, failure, or supersession
(first conjunct, for every outcome and every captured counter `c`); the
synchronous prefix of `execute` appends none (last conjunct); and at
settlement `isLoading` (isRunning) is reset to false with `isFinished` set
to true exactly when the invocation's captured counter is still current —
otherwise both flags are left unchanged. -/
theorem finished_fires_once_per_invocation {R E A : Type} (s : ApiState R E A)
    (c : Nat) (args : A) (o : Except E R) :
    countFinally (executeChain s c args o).1.events = countFinally s.events + 1
    ∧ (c = s.executeCounter →
        (executeChain s c args o).1.isLoading = false
        ∧ (executeChain s c args o).1.isFinished = true)
    ∧ (c ≠ s.executeCounter →
        (executeChain s c args o).1.isLoading = s.isLoading
        ∧ (executeChain s c args o).1.isFinished = s.isFinished)
    ∧ countFinally (executeStart s).1.events = countFinally s.events := by
  cases o <;> by_cases h : c = s.executeCounter <;>
    simp [executeChain, executeStart, pThen, pCatch, pFinally, loadingSet,
          countFinally, ApiEvent.isFinallyEv, h]

/-- C5: `execute` never raises to its caller — the settlement chain
`fn(...).then(...).catch(...).finally(...)` of a whole invocation is
always fulfilled, never rejected, for every outcome of the operation
(first conjunct); when the operation fails, the failure is captured into
`error` (lastError) and broadcast once on the error channel instead
(second conjunct). -/
theorem execute_never_raises {R E A : Type} (s : ApiState R E A) (args : A)
    (o : Except E R) :
    isFulfilled (executeModel s args o).2 = true
    ∧ (∀ e, o = Except.error e →
        (executeModel s args o).1.error = some e
        ∧ (executeModel s args o).1.events
            = s.events ++ [ApiEvent.errorEv e, ApiEvent.finallyEv]) := by
  cases o <;>
    simp [executeModel, executeChain, executeStart, pThen, pCatch, pFinally,
          loadingSet, isFulfilled]

/-- C5 witness: a concrete failing operation — the chain is fulfilled and
the failure value 9 lands in `error` with one error broadcast. -/
theorem execute_never_raises_witness :
    isFulfilled (executeModel (initApiState : ApiState Nat Nat (List Nat)) [3]
        (Except.error 9)).2 = true
    ∧ ((executeModel (initApiState : ApiState Nat Nat (List Nat)) [3]
          (Except.error 9)).1.error = some 9
        ∧ (executeModel (initApiState : ApiState Nat Nat (List Nat)) [3]
            (Except.error 9)).1.events
            = (initApiState : ApiState Nat Nat (List Nat)).events
                ++ [ApiEvent.errorEv 9, ApiEvent.finallyEv]) :=
  ⟨(execute_never_raises initApiState [3] (Except.error 9)).1,
   (execute_never_raises initApiState [3] (Except.error 9)).2 9 rfl⟩

/-- C6: `executeDirect` is stateless pass-through — any number of
consecutive `executeDirect` calls leaves every CallState field
(`executeCounter`, `isLoading`, `isFinished`, `response`, `error`) and the
broadcast log unchanged, and a single `executeDirect` call returns the
operation's outcome to the caller: a produced value is returned and a
failure propagates. -/
theorem direct_call_isolation {R E A : Type} (s : ApiState R E A)
    (outcomes : List (Except E R)) (o : Except E R) :
    executeDirectMany s outcomes = s
    ∧ (executeDirect s o).1 = s
    ∧ (executeDirect s o).2 = o := by
  refine ⟨?_, rfl, rfl⟩
  induction outcomes with
  | nil => rfl
  | cons x xs ih => exact ih

/-- C7: Deduplication idempotence — if the invoker has dispatched at least
once and a delivered non-skip argument list is deeply equal to the most
recently dispatched one, no new dispatch happens (first conjunct); two
consecutive deliveries of deeply equal argument lists produce exactly one
dispatch: the second delivery never dispatches (second conjunct), while
the first dispatches exactly once whenever it is not itself suppressed
(third conjunct). -/
theorem dedup_idempotence {A : Type} [DecidableEq A] (st : InvokerState A) (a : A) :
    (st.hasExecuted = true → st.lastArgs = some a → runWatch st (some a) = st)
    ∧ runWatch (runWatch st (some a)) (some a) = runWatch st (some a)
    ∧ ((st.hasExecuted = false ∨ st.lastArgs ≠ some a) →
        (runWatch st (some a)).calls = st.calls ++ [a]) := by
  refine ⟨fun h1 h2 => runWatch_suppressed h1 h2, ?_,
          fun h => by rw [runWatch_invoked h]⟩
  by_cases h1 : st.hasExecuted = true
  · by_cases h2 : st.lastArgs = some a
    · rw [runWatch_suppressed h1 h2, runWatch_suppressed h1 h2]
    · rw [runWatch_invoked (Or.inr h2)]
      exact runWatch_suppressed rfl rfl
  · have h1f : st.hasExecuted = false := by simpa using h1
    rw [runWatch_invoked (Or.inl h1f)]
    exact runWatch_suppressed rfl rfl

/-- C7 witness: with arguments `[2]` already dispatched, delivering `[2]`
again dispatches nothing; a fresh invoker delivered `[3]` dispatches it. -/
theorem dedup_idempotence_witness :
    runWatch (InvokerState.mk true (some [2]) [[2]]) (some ([2] : List Nat))
      = InvokerState.mk true (some [2]) [[2]]
    ∧ (runWatch (InvokerState.mk false none []) (some ([3] : List Nat))).calls
        = (InvokerState.mk false none ([] : List (List Nat))).calls ++ [[3]] :=
  ⟨(dedup_idempotence (InvokerState.mk true (some [2]) [[2]]) [2]).1 rfl rfl,
   (dedup_idempotence (InvokerState.mk false none []) [3]).2.2 (Or.inl rfl)⟩

/-- C8: Skip sentinel suppresses — a delivery of the skip sentinel
(`undefined`, modelled `none`) changes nothing: no dispatch, and
`lastArgs` (lastInvokedArguments) and `hasExecuted` keep their prior
values (first conjunct); consequently a later delivery deeply equal to the
pre-skip arguments is still suppressed (second conjunct). -/
theorem skip_sentinel_suppresses {A : Type} [DecidableEq A] (st : InvokerState A)
    (a : A) :
    runWatch st none = st
    ∧ (st.hasExecuted = true → st.lastArgs = some a →
        watchRun st [none, some a] = st) := by
  refine ⟨rfl, fun h1 h2 => ?_⟩
  show runWatch (runWatch st none) (some a) = st
  rw [runWatch_skip, runWatch_suppressed h1 h2]

/-- C8 witness: a skip delivery then a delivery equal to the pre-skip
arguments leaves the concrete invoker unchanged. -/
theorem skip_sentinel_suppresses_witness :
    runWatch (InvokerState.mk true (some [2]) [[2]]) (none : Option (List Nat))
      = InvokerState.mk true (some [2]) [[2]]
    ∧ watchRun (InvokerState.mk true (some [2]) [[2]]) [none, some ([2] : List Nat)]
        = InvokerState.mk true (some [2]) [[2]] :=
  ⟨(skip_sentinel_suppresses (InvokerState.mk true (some [2]) [[2]]) [2]).1,
   (skip_sentinel_suppresses (InvokerState.mk true (some [2]) [[2]]) [2]).2 rfl rfl⟩

/-- C9: Eager first pass — `apiWatch` registers its watcher with
`immediate: true`, so the watcher's value at registration time is
delivered once before any change delivery; when that first value is a
non-skip argument list, exactly one dispatch (of exactly that list) has
happened before any change event (first conjunct), and the rest of the
run continues from that state (second conjunct). -/
theorem eager_first_pass {A : Type} [DecidableEq A] (a : A)
    (changes : List (Option A)) :
    (runWatch initInvoker (some a)).calls = [a]
    ∧ apiWatchModel (some a) changes
        = watchRun (InvokerState.mk true (some a) [a]) changes := by
  have h := @runWatch_invoked A _ initInvoker a (Or.inl rfl)
  constructor
  · rw [h]
    simp [initInvoker]
  · rw [apiWatchModel, h]
    simp [initInvoker]

/-- C3 counterexample: immediately after construction `isLoading`
(isRunning) is false and `isFinished` is also false — the source
initialises `isFinished = ref(false)`, not true — so `isFinished` is not
the logical negation of `isRunning` in that state. -/
theorem init_isFinished_not_negation :
    (initApiState : ApiState Nat Nat (List Nat)).isLoading = false
    ∧ (initApiState : ApiState Nat Nat (List Nat)).isFinished = false
    ∧ ¬((initApiState : ApiState Nat Nat (List Nat)).isFinished
        = !(initApiState : ApiState Nat Nat (List Nat)).isLoading) := by
  decide

theorem executeChain_flags_tied {R E A : Type} (s : ApiState R E A) (c : Nat)
    (args : A) (o : Except E R) (h : s.isFinished = !s.isLoading) :
    (executeChain s c args o).1.isFinished = !(executeChain s c args o).1.isLoading := by
  cases o <;> by_cases hc : c = s.executeCounter <;>
    simp [executeChain, pThen, pCatch, pFinally, loadingSet, hc, h]

theorem doStep_flags_tied {R E A : Type} (r : Run R E A) (step : Step R E A)
    (h : r.startedArgs ≠ [] → r.st.isFinished = !r.st.isLoading) :
    (doStep r step).startedArgs ≠ [] →
      (doStep r step).st.isFinished = !(doStep r step).st.isLoading := by
  cases step with
  | startCall args =>
      intro _
      simp [doStep, executeStart_fst]
  | settleCall inv outcome =>
      cases hl : r.startedArgs[inv - 1]? with
      | none => simpa [doStep, hl] using h
      | some args =>
          by_cases hs : inv ∈ r.settled ∨ inv = 0
          · simpa [doStep, hl, hs] using h
          · intro _
            have hne2 : r.startedArgs ≠ [] := by
              intro hemp
              rw [hemp] at hl
              simp at hl
            simp only [doStep, hl, if_neg hs]
            exact executeChain_flags_tied r.st inv args outcome (h hne2)

theorem foldl_flags_tied {R E A : Type} (steps : List (Step R E A)) :
    ∀ r : Run R E A, (r.startedArgs ≠ [] → r.st.isFinished = !r.st.isLoading) →
      ((steps.foldl doStep r).startedArgs ≠ [] →
        (steps.foldl doStep r).st.isFinished = !(steps.foldl doStep r).st.isLoading) := by
  induction steps with
  | nil => intro r hr; exact hr
  | cons x xs ih => intro r hr; exact ih (doStep r x) (doStep_flags_tied r x hr)

/-- C3 amended: in every reachable state of a CallState in which at least
one `execute` invocation has started, `isFinished` equals the logical
negation of `isLoading` (isRunning); immediately after construction,
however, both flags are false (`isFinished` is initialised to false, not
true), so the negation relation does not hold there. -/
theorem flags_negation_once_started {R E A : Type} (steps : List (Step R E A))
    (h : (runSchedule steps).startedArgs ≠ []) :
    (runSchedule steps).st.isFinished = !(runSchedule steps).st.isLoading := by
  refine foldl_flags_tied steps initRun (fun hne => absurd rfl hne) h

/-- C3 amended witness: after one started invocation the flags satisfy the
negation relation. -/
theorem flags_negation_once_started_witness :
    (@runSchedule Nat Nat (List Nat) [Step.startCall [3]]).startedArgs ≠ []
    ∧ (@runSchedule Nat Nat (List Nat) [Step.startCall [3]]).st.isFinished
        = !(@runSchedule Nat Nat (List Nat) [Step.startCall [3]]).st.isLoading :=
  ⟨by decide, flags_negation_once_started _ (by decide)⟩

/-- C4 witness: a settlement of the only started invocation appends one
finished broadcast and resets the flags; a settlement of a superseded
invocation (counter 1 while the current counter is 2) leaves the flags
unchanged. -/
theorem finished_fires_once_witness :
    countFinally ((executeChain (executeStart (initApiState : ApiState Nat Nat (List Nat))).1
        1 [4] (Except.ok 7)).1.events)
      = countFinally ((executeStart (initApiState : ApiState Nat Nat (List Nat))).1.events) + 1
    ∧ ((executeChain (executeStart (initApiState : ApiState Nat Nat (List Nat))).1
          1 [4] (Except.ok 7)).1.isLoading = false
        ∧ (executeChain (executeStart (initApiState : ApiState Nat Nat (List Nat))).1
            1 [4] (Except.ok 7)).1.isFinished = true)
    ∧ ((executeChain (executeStart (executeStart (initApiState : ApiState Nat Nat (List Nat))).1).1
          1 [4] (Except.error 9)).1.isLoading
        = (executeStart (executeStart (initApiState : ApiState Nat Nat (List Nat))).1).1.isLoading
        ∧ (executeChain (executeStart (executeStart (initApiState : ApiState Nat Nat (List Nat))).1).1
            1 [4] (Except.error 9)).1.isFinished
          = (executeStart (executeStart (initApiState : ApiState Nat Nat (List Nat))).1).1.isFinished) :=
  ⟨(finished_fires_once_per_invocation (executeStart initApiState).1 1 [4] (Except.ok 7)).1,
   (finished_fires_once_per_invocation (executeStart initApiState).1 1 [4] (Except.ok 7)).2.1
     (by decide),
   (finished_fires_once_per_invocation (executeStart (executeStart initApiState).1).1
      1 [4] (Except.error 9)).2.2.1 (by decide)⟩
